import Mathlib

/-!
Formal model of the Vero backend (`src/index.js`), a single-file Express
service that accepts an image upload on `POST /detect`, forwards it to an
external inference API, decodes the returned text as JSON, and maps the
decoded verdict to one of four fixed result labels.

Strings are modelled as lists of characters.  JavaScript values produced by
`JSON.parse` are modelled by the inductive type `Json`; the value `undefined`
(the result of accessing a missing field) is modelled by `Option Json` with
`none` standing for `undefined`.  Machine numbers are modelled by `ℚ`, with
`Option ℚ` used where JavaScript would produce `NaN` (`none` = `NaN`).
-/

set_option maxRecDepth 20000

abbrev Str := List Char

/-- Whitespace removed by the JavaScript `String.prototype.trim` used in
`safeJsonParse` and `getApiKey` (modelled for the ASCII whitespace characters
plus no-break space; more exotic Unicode space characters are not modelled). -/
def jsIsWs (c : Char) : Bool :=
  c == ' ' || c == '\t' || c == '\n' || c == '\r' ||
    c == '\x0b' || c == '\x0c' || c == Char.ofNat 160

/-- JavaScript `String.prototype.trim`: strip whitespace from both ends. -/
def jsTrim (s : Str) : Str :=
  ((s.dropWhile jsIsWs).reverse.dropWhile jsIsWs).reverse

/-- JSON values as produced by `JSON.parse`.  Objects keep their fields in
source order; a later duplicate key wins on field access, as it does for a
JavaScript object built by `JSON.parse`. -/
inductive Json where
  | null : Json
  | bool (b : Bool) : Json
  | num (q : ℚ) : Json
  | str (s : Str) : Json
  | arr (elems : List Json) : Json
  | obj (fields : List (Str × Json)) : Json

/-- The whitespace characters the JSON grammar allows between tokens. -/
def jsonWsChar (c : Char) : Bool :=
  c == ' ' || c == '\t' || c == '\n' || c == '\r'

def skipWs (s : Str) : Str := s.dropWhile jsonWsChar

def digitVal (c : Char) : Nat := c.toNat - 48

def digitsToNat (ds : Str) : Nat := ds.foldl (fun n c => n * 10 + digitVal c) 0

def hexVal (c : Char) : Option Nat :=
  if c.isDigit then some (c.toNat - 48)
  else if 97 ≤ c.toNat ∧ c.toNat ≤ 102 then some (c.toNat - 87)
  else if 65 ≤ c.toNat ∧ c.toNat ≤ 70 then some (c.toNat - 55)
  else none

def parseHex4 : Str → Option (Nat × Str)
  | a :: b :: c :: d :: rest =>
    match hexVal a, hexVal b, hexVal c, hexVal d with
    | some x, some y, some z, some w =>
      some (((x * 16 + y) * 16 + z) * 16 + w, rest)
    | _, _, _, _ => none
  | _ => none

/-- Decode one escape character of a JSON string (the character after a
backslash, other than `u`). -/
def escChar (e : Char) : Option Char :=
  if e == '"' then some '"'
  else if e == '\\' then some '\\'
  else if e == '/' then some '/'
  else if e == 'b' then some (Char.ofNat 8)
  else if e == 'f' then some (Char.ofNat 12)
  else if e == 'n' then some '\n'
  else if e == 'r' then some '\r'
  else if e == 't' then some '\t'
  else none

/-- Parse the body of a JSON string, positioned after the opening quote.
Returns the decoded content and the remaining input after the closing quote.
`\uXXXX` escapes are mapped to the corresponding character directly
(surrogate pairs are not combined; an invalid scalar value maps to `U+0000`).
Unescaped control characters below `U+0020` are rejected, as `JSON.parse`
rejects them. -/
def parseStringBody : Nat → Str → Option (Str × Str)
  | 0, _ => none
  | _ + 1, [] => none
  | fuel + 1, c :: rest =>
    if c == '"' then some ([], rest)
    else if c == '\\' then
      match rest with
      | [] => none
      | e :: r =>
        if e == 'u' then
          match parseHex4 r with
          | some (n, r2) =>
            (parseStringBody fuel r2).map (fun p => (Char.ofNat n :: p.1, p.2))
          | none => none
        else
          match escChar e with
          | some d => (parseStringBody fuel r).map (fun p => (d :: p.1, p.2))
          | none => none
    else if c.toNat < 32 then none
    else (parseStringBody fuel rest).map (fun p => (c :: p.1, p.2))

/-- Build the rational value of a decimal literal from its sign, integer
digits, fraction digits and exponent: the value `± d(ip ++ fp) * 10 ^ (ex - |fp|)`
built with a single `mkRat` so that it evaluates by kernel reduction. -/
def mkNum (neg : Bool) (ip fp : Str) (ex : ℤ) : ℚ :=
  let m : ℤ := (digitsToNat (ip ++ fp) : ℤ)
  let sm : ℤ := if neg then -m else m
  let e : ℤ := ex - (fp.length : ℤ)
  if 0 ≤ e then mkRat (sm * (10 : ℤ) ^ e.toNat) 1
  else mkRat sm ((10 : ℕ) ^ (-e).toNat)

/-- Parse an optional exponent part (`e`/`E`, optional sign, digits).  When
the input does not start with `e`/`E` the exponent is `0` and nothing is
consumed. -/
def parseExpPart : Str → Option (ℤ × Str)
  | c :: rest =>
    if c == 'e' || c == 'E' then
      let sr : ℤ × Str := match rest with
        | '+' :: t => (1, t)
        | '-' :: t => (-1, t)
        | t => (1, t)
      let ds := sr.2.takeWhile Char.isDigit
      if ds = [] then none
      else some (sr.1 * (digitsToNat ds : ℤ), sr.2.drop ds.length)
    else some (0, c :: rest)
  | [] => some (0, [])

/-- Parse a number by the strict JSON grammar: optional minus, integer part
with no leading zero, optional fraction, optional exponent. -/
def parseNumber (s : Str) : Option (ℚ × Str) :=
  let ns : Bool × Str := match s with
    | '-' :: r => (true, r)
    | r => (false, r)
  let ip := ns.2.takeWhile Char.isDigit
  if ip = [] then none
  else if 1 < ip.length ∧ ip.head? = some '0' then none
  else
    match ns.2.drop ip.length with
    | '.' :: r =>
      let fp := r.takeWhile Char.isDigit
      if fp = [] then none
      else
        match parseExpPart (r.drop fp.length) with
        | some (e, rest) => some (mkNum ns.1 ip fp e, rest)
        | none => none
    | s2 =>
      match parseExpPart s2 with
      | some (e, rest) => some (mkNum ns.1 ip [] e, rest)
      | none => none

mutual

/-- Parse one JSON value, returning it with the unconsumed remainder.  The
fuel argument bounds the nesting recursion; `jsonParse` supplies more fuel
than any input of its length can use. -/
def parseValue : Nat → Str → Option (Json × Str)
  | 0, _ => none
  | fuel + 1, s =>
    match skipWs s with
    | [] => none
    | c :: rest =>
      if c == '"' then
        (parseStringBody (rest.length + 1) rest).map (fun p => (Json.str p.1, p.2))
      else if c == '\x7b' then
        match skipWs rest with
        | '\x7d' :: r => some (Json.obj [], r)
        | r => (parseMembers fuel r).map (fun p => (Json.obj p.1, p.2))
      else if c == '[' then
        match skipWs rest with
        | ']' :: r => some (Json.arr [], r)
        | r => (parseElems fuel r).map (fun p => (Json.arr p.1, p.2))
      else if c == 't' then
        match rest with
        | 'r' :: 'u' :: 'e' :: r => some (Json.bool true, r)
        | _ => none
      else if c == 'f' then
        match rest with
        | 'a' :: 'l' :: 's' :: 'e' :: r => some (Json.bool false, r)
        | _ => none
      else if c == 'n' then
        match rest with
        | 'u' :: 'l' :: 'l' :: r => some (Json.null, r)
        | _ => none
      else
        (parseNumber (c :: rest)).map (fun p => (Json.num p.1, p.2))

/-- Parse the members of an object, positioned after `{` (and after the
empty-object case has been excluded). -/
def parseMembers : Nat → Str → Option (List (Str × Json) × Str)
  | 0, _ => none
  | fuel + 1, s =>
    match skipWs s with
    | '"' :: rest =>
      match parseStringBody (rest.length + 1) rest with
      | none => none
      | some (key, r1) =>
        match skipWs r1 with
        | ':' :: r2 =>
          match parseValue fuel r2 with
          | none => none
          | some (v, r3) =>
            match skipWs r3 with
            | ',' :: r4 =>
              (parseMembers fuel r4).map (fun p => ((key, v) :: p.1, p.2))
            | '\x7d' :: r4 => some ([(key, v)], r4)
            | _ => none
        | _ => none
    | _ => none

/-- Parse the elements of an array, positioned after `[` (and after the
empty-array case has been excluded). -/
def parseElems : Nat → Str → Option (List Json × Str)
  | 0, _ => none
  | fuel + 1, s =>
    match parseValue fuel s with
    | none => none
    | some (v, r1) =>
      match skipWs r1 with
      | ',' :: r2 => (parseElems fuel r2).map (fun p => (v :: p.1, p.2))
      | ']' :: r2 => some ([v], r2)
      | _ => none

end

/-- Model of `JSON.parse` wrapped in `try`/`catch`: `some` on success, `none`
where `JSON.parse` would throw.  Trailing input other than whitespace is
rejected, as `JSON.parse` rejects it. -/
def jsonParse (s : Str) : Option Json :=
  match parseValue (s.length + 1) s with
  | some (v, rest) => if skipWs rest = [] then some v else none
  | none => none

/-- Index of the last occurrence of a character in a list. -/
def lastIdxOf (c : Char) (s : Str) : Option Nat :=
  match s.reverse.findIdx? (fun d => d == c) with
  | some k => some (s.length - 1 - k)
  | none => none

/-- Model of the regex scan `trimmed.match(/{[\s\S]*}/)` in `safeJsonParse`
(src/index.js line 85).  The leftmost-greedy match of this pattern, when one
exists, runs from the first opening brace to the last closing brace of the
input, and one exists exactly when the first opening brace lies strictly
before the last closing brace. -/
def extractBraces (s : Str) : Option Str :=
  match s.findIdx? (fun c => c == '\x7b'), lastIdxOf '\x7d' s with
  | some i, some j => if i < j then some ((s.drop i).take (j - i + 1)) else none
  | _, _ => none

/-- Model of `safeJsonParse` (src/index.js lines 77-93).  The JavaScript
function returns `null` when the argument is falsy, when both parse attempts
throw, or when no brace-delimited substring exists; all of those are `none`
here. -/
def safeJsonParse (text : Str) : Option Json :=
  if text = [] then none
  else
    let trimmed := jsTrim text
    match jsonParse trimmed with
    | some v => some v
    | none =>
      match extractBraces trimmed with
      | some m => jsonParse m
      | none => none

/-- JavaScript `ToNumber` on a string: trimmed empty input is `0`; otherwise a
decimal numeric literal (optional sign, digits, fraction, exponent) evaluates
to its value and anything else is `NaN` (`none`).  The hexadecimal, octal,
binary and `Infinity` literal forms of JavaScript are not modelled. -/
def strToNumber (s : Str) : Option ℚ :=
  let t := jsTrim s
  if t = [] then some 0
  else
    let ns : Bool × Str := match t with
      | '+' :: r => (false, r)
      | '-' :: r => (true, r)
      | r => (false, r)
    let ip := ns.2.takeWhile Char.isDigit
    let s2 := ns.2.drop ip.length
    let fr : Str × Str := match s2 with
      | '.' :: r => (r.takeWhile Char.isDigit, r.drop (r.takeWhile Char.isDigit).length)
      | r => ([], r)
    if ip = [] ∧ fr.1 = [] then none
    else
      match parseExpPart fr.2 with
      | some (e, rest) => if rest = [] then some (mkNum ns.1 ip fr.1 e) else none
      | none => none

/-- JavaScript `ToNumber` applied to a value produced by `JSON.parse`, with
`none` on the left for `undefined` (a missing field) and `none` on the right
for `NaN`.  An array converts through its joined string form; that conversion
is modelled for one level of nesting (deeper nestings give `NaN` here). -/
def jsToNumber : Option Json → Option ℚ
  | none => none
  | some Json.null => some 0
  | some (Json.bool b) => some (if b then 1 else 0)
  | some (Json.num q) => some q
  | some (Json.str s) => strToNumber s
  | some (Json.arr []) => some 0
  | some (Json.arr [Json.null]) => some 0
  | some (Json.arr [Json.num q]) => some q
  | some (Json.arr [Json.str s]) => strToNumber s
  | some (Json.arr _) => none
  | some (Json.obj _) => none

/-- Truthiness of a JavaScript number, where `none` models `NaN`. -/
def numTruthy : Option ℚ → Bool
  | none => false
  | some q => q != 0

/-- Line 210 of src/index.js: `const confidence = Number(parsed.confidence_raw) || 0`.
`||` keeps the left operand when it is truthy, so a falsy numeric coercion
(`NaN` or `0`) is replaced by `0` and any other number passes through. -/
def confCoerce (v : Option Json) : ℚ :=
  let n := jsToNumber v
  if numTruthy n then n.getD 0 else 0

/-- JavaScript truthiness of a parsed JSON value (the `if (!parsed) throw`
checks on lines 187 and 207 of src/index.js). -/
def jsonTruthy : Json → Bool
  | Json.null => false
  | Json.bool b => b
  | Json.num q => q != 0
  | Json.str s => !s.isEmpty
  | Json.arr _ => true
  | Json.obj _ => true

def lookupLast : List (Str × Json) → Str → Option Json
  | [], _ => none
  | (k, v) :: rest, key =>
    match lookupLast rest key with
    | some r => some r
    | none => if k = key then some v else none

/-- JavaScript property access `v.key` on a parsed JSON value; `none` models
`undefined`.  On an object built by `JSON.parse` a later duplicate key wins,
so the lookup takes the last matching field. -/
def jsonGet (v : Json) (key : Str) : Option Json :=
  match v with
  | Json.obj fields => lookupLast fields key
  | _ => none

def natToStr (n : Nat) : Str := Nat.toDigits 10 n

def intToStr (i : ℤ) : Str :=
  if i < 0 then '-' :: natToStr i.natAbs else natToStr i.natAbs

/-- JavaScript `ToString` on a number.  Integer values render exactly; the
decimal rendering of a non-integer value is simplified to `num/den` form
(no claim exercises it). -/
def ratToStr (q : ℚ) : Str :=
  if q.den = 1 then intToStr q.num
  else intToStr q.num ++ ('/' :: natToStr q.den)

def joinWithComma : List Str → Str
  | [] => []
  | [s] => s
  | s :: rest => s ++ ',' :: joinWithComma rest

mutual

/-- JavaScript `String(v)` on a parsed JSON value (used on the `reason` field,
line 230 of src/index.js).  Arrays render as their elements joined by commas
with `null` elements rendering empty, objects as `[object Object]`. -/
def jsToString : Json → Str
  | Json.null => "null".data
  | Json.bool b => if b then "true".data else "false".data
  | Json.num q => ratToStr q
  | Json.str s => s
  | Json.arr xs => joinWithComma (arrElemsToStr xs)
  | Json.obj _ => "[object Object]".data

def arrElemsToStr : List Json → List Str
  | [] => []
  | x :: xs =>
    (match x with
     | Json.null => []
     | y => jsToString y) :: arrElemsToStr xs

end

def notDetectableLbl : Str := "Not Detectable By Vero".data

def aiDetectedLbl : Str := "AI Detected by Vero".data

def manipulationDetectedLbl : Str := "Manipulation Detected by Vero".data

def verifiedLbl : Str := "Verified by Vero".data

def aiGeneratedLit : Str := "AI Generated".data

def manipulatedLit : Str := "Manipulated".data

def realPhotographLit : Str := "Real Photograph".data

def classificationKey : Str := "classification".data

def confidenceRawKey : Str := "confidence_raw".data

def reasonKey : Str := "reason".data

def lowConfWhy : Str := "Not Detectable By Vero (confidence under 70%).".data

def defaultReasonStr : Str :=
  "Vero detected strong visual signals consistent with this classification.".data

/-- JavaScript strict equality `v === lit` between a parsed value (possibly
`undefined`) and a string literal: true exactly for the equal string. -/
def jsStrictEqStr (v : Option Json) (lit : Str) : Bool :=
  match v with
  | some (Json.str s) => s == lit
  | _ => false

/-- Lines 212-220 of src/index.js: `result` starts as the inconclusive label
and is overwritten only inside the `confidence >= 70` branch, by the chain of
strict string comparisons on `parsed.classification`. -/
def mapResult (classification : Option Json) (confidence : ℚ) : Str :=
  if 70 ≤ confidence then
    if jsStrictEqStr classification aiGeneratedLit then aiDetectedLbl
    else if jsStrictEqStr classification manipulatedLit then manipulationDetectedLbl
    else if jsStrictEqStr classification realPhotographLit then verifiedLbl
    else notDetectableLbl
  else notDetectableLbl

/-- The coerced confidence of a parsed verdict (line 210 of src/index.js). -/
def confOf (parsed : Json) : ℚ :=
  confCoerce (jsonGet parsed confidenceRawKey)

/-- The result label computed for a parsed verdict (lines 210-220). -/
def detectResult (parsed : Json) : Str :=
  mapResult (jsonGet parsed classificationKey) (confOf parsed)

/-- JavaScript `a || b` where `a` is a parsed JSON value (possibly missing)
and `b` the fallback value. -/
def jsOrDefault (a : Option Json) (b : Json) : Json :=
  match a with
  | some v => if jsonTruthy v then v else b
  | none => b

/-- Lines 227-233 of src/index.js: the `why` string of a success reply — the
fixed low-confidence text below the threshold, otherwise the model's own
`reason` (with a generic fallback when falsy) stringified and cut to 200
characters. -/
def successWhy (parsed : Json) (confidence : ℚ) : Str :=
  if confidence < 70 then lowConfWhy
  else (jsToString (jsOrDefault (jsonGet parsed reasonKey) (Json.str defaultReasonStr))).take 200

/-- JavaScript `a || b` on strings: the empty string is falsy. -/
def jsOrStr (a b : Str) : Str := if a = [] then b else a

/-- The environment variables the service reads (src/index.js lines 31-38 and
53); an unset variable is modelled by the empty string, which `||` treats the
same way as `undefined`. -/
structure Env where
  openaiApiKeyVar : Str
  openaiKeyVar : Str
  openaiTokenVar : Str
  debugVeroVar : Str

/-- `getApiKey` (src/index.js lines 31-38): the first truthy value among
`OPENAI_API_KEY`, `OPENAI_KEY`, `OPENAI_TOKEN` and the empty string, trimmed. -/
def getApiKey (env : Env) : Str :=
  jsTrim (jsOrStr env.openaiApiKeyVar (jsOrStr env.openaiKeyVar
    (jsOrStr env.openaiTokenVar [])))

/-- The uploaded file as multer hands it to the handler: a declared media type
(`req.file.mimetype`, possibly absent) and the temporary path the upload
middleware has already written under `uploads/`. -/
structure UploadedFile where
  mimetype : Option Str
  tmpPath : Str

/-- The media-type allow-list of the `/detect` handler (lines 123-129). -/
def allowedTypes : List Str :=
  ["image/jpeg".data, "image/jpg".data, "image/png".data,
   "image/gif".data, "image/webp".data]

def lowerStr (s : Str) : Str := s.map Char.toLower

/-- `(req.file.mimetype || "").toLowerCase()` (line 130). -/
def mimeLower (f : UploadedFile) : Str :=
  lowerStr (jsOrStr (f.mimetype.getD []) [])

/-- String interpolation of a possibly-undefined value (line 134 interpolates
`req.file.mimetype` itself, not the lowered copy). -/
def strOfOptStr : Option Str → Str
  | some s => s
  | none => "undefined".data

/-- The outcome of the one external inference call made per request, together
with the text extraction that follows it: either the extracted answer text,
or a thrown error (API failure, timeout, empty text output, file-read error)
carrying its message. -/
inductive ApiOutcome where
  | ok (text : Str) : ApiOutcome
  | thrown (msg : Str) : ApiOutcome

/-- One JSON reply of the `/detect` handler.  Every `res.json` call in the
handler carries exactly these fields; `debugInfo` models the `debug` payload
attached on the catch path when `DEBUG_VERO === "1"`. -/
structure DetectReply where
  status : Nat
  result : Str
  confidence : ℚ
  why : Str
  request_id : Str
  processing_ms : ℤ
  debugInfo : Option Str

/-- What one run of the `/detect` handler leaves behind: the reply sent and
whether the multer temp file of the request is still on disk afterwards. -/
structure DetectOutcome where
  reply : DetectReply
  tempFileRemains : Bool

/-- `request_id` construction (line 99): `vero_` + timestamp + `_` + random
hex suffix. -/
def mkRequestId (tid : ℤ) (rand : Str) : Str :=
  "vero_".data ++ intToStr tid ++ ('_' :: rand)

def noFileWhy : Str := "No image file was provided.".data

def missingKeyWhy : Str :=
  "Server is missing OPENAI_API_KEY (check .env.local or Render env vars).".data

def unsupportedTypeWhy (m : Option Str) : Str :=
  "Unsupported image type: ".data ++ strOfOptStr m ++
    ". Use jpg, jpeg, png, gif, or webp.".data

def internalErrorWhy : Str := "An internal error occurred during analysis.".data

/-- The catch block (lines 237-263): the temp file is unlinked (the path was
set before anything in the `try` body can throw past it), and a 500 reply is
sent, with the error message attached under `debug` when `DEBUG_VERO` is
`"1"`. -/
def catchOutcome (env : Env) (rid : Str) (pms : ℤ) (msg : Str) : DetectOutcome :=
  { reply :=
      { status := 500, result := notDetectableLbl, confidence := 0,
        why := internalErrorWhy, request_id := rid, processing_ms := pms,
        debugInfo := if env.debugVeroVar = "1".data then some msg else none },
    tempFileRemains := false }

/-- Lines 161-236 of src/index.js, the region after validation has passed (so
`filePath` is set): the external call either throws, or yields text that is
parsed by `safeJsonParse` and rejected when falsy (`if (!parsed) throw`);
otherwise the verdict is mapped and the 200 success reply is built.  Every
branch here unlinks the temp file before replying. -/
def apiPhase (env : Env) (rid : Str) (pms : ℤ) (api : ApiOutcome) : DetectOutcome :=
  match api with
  | ApiOutcome.thrown msg => catchOutcome env rid pms msg
  | ApiOutcome.ok text =>
    match safeJsonParse text with
    | none => catchOutcome env rid pms "Model returned non JSON output".data
    | some parsed =>
      if jsonTruthy parsed then
        let confidence := confOf parsed
        { reply := { status := 200, result := detectResult parsed,
                     confidence := confidence,
                     why := successWhy parsed confidence,
                     request_id := rid, processing_ms := pms,
                     debugInfo := none },
          tempFileRemains := false }
      else catchOutcome env rid pms "Model returned non JSON output".data

/-- The `POST /detect` handler (src/index.js lines 95-265), with the external
call abstracted as `api` and the clock readings passed in (`tid` for the
`Date.now()` inside the request id, `t0` for `startedAt`, `t1` for the
`Date.now()` at the reply).  `tempFileRemains` tracks the multer temp file:
multer creates it exactly when a file is attached, and the handler unlinks it
only at the two `fs.unlinkSync` sites (lines 222 and 243), which run only
after `filePath` has been assigned on line 140 — the three earlier returns
never unlink. -/
def detectHandler (env : Env) (file : Option UploadedFile) (api : ApiOutcome)
    (tid t0 t1 : ℤ) (rand : Str) : DetectOutcome :=
  let rid := mkRequestId tid rand
  let pms := t1 - t0
  match file with
  | none =>
    { reply := { status := 400, result := notDetectableLbl, confidence := 0,
                 why := noFileWhy, request_id := rid, processing_ms := pms,
                 debugInfo := none },
      tempFileRemains := false }
  | some f =>
    if getApiKey env = [] then
      { reply := { status := 500, result := notDetectableLbl, confidence := 0,
                   why := missingKeyWhy, request_id := rid, processing_ms := pms,
                   debugInfo := none },
        tempFileRemains := true }
    else if mimeLower f ∈ allowedTypes then
      apiPhase env rid pms api
    else
      { reply := { status := 400, result := notDetectableLbl, confidence := 0,
                   why := unsupportedTypeWhy f.mimetype, request_id := rid,
                   processing_ms := pms, debugInfo := none },
        tempFileRemains := true }

/-- The `GET /health` reply (src/index.js lines 47-56). -/
structure HealthReply where
  ok : Bool
  hasKey : Bool
  keyPreview : Option Str
  debug : Bool
  envLocalLoaded : Bool

/-- The `/health` handler: `keyPreview` is `key.slice(0, 7) + "..." + key.slice(-4)`
when a key is configured and `null` otherwise; `envLocalLoaded` reflects
`fs.existsSync(".env.local")`, passed in as a parameter. -/
def healthHandler (env : Env) (envLocalExists : Bool) : HealthReply :=
  let key := getApiKey env
  { ok := true,
    hasKey := !key.isEmpty,
    keyPreview :=
      if key = [] then none
      else some (key.take 7 ++ "...".data ++ key.drop (key.length - 4)),
    debug := env.debugVeroVar = "1".data,
    envLocalLoaded := envLocalExists }

inductive Method where
  | get : Method
  | post : Method
  | options : Method
deriving DecidableEq

inductive RouteTag where
  | corsPreflight : RouteTag
  | health : RouteTag
  | detect : RouteTag
deriving DecidableEq

/-- Route dispatch of the Express app as registered in src/index.js: the CORS
middleware (lines 15-24) answers every `OPTIONS` request with 200, and the
only registered routes are `GET /health` (line 47) and `POST /detect`
(line 95); any other request falls through to the framework's 404. -/
def dispatch (m : Method) (path : Str) : Option RouteTag :=
  match m with
  | Method.options => some RouteTag.corsPreflight
  | Method.get => if path = "/health".data then some RouteTag.health else none
  | Method.post => if path = "/detect".data then some RouteTag.detect else none

def resultLabels : List Str :=
  [aiDetectedLbl, manipulationDetectedLbl, verifiedLbl, notDetectableLbl]

theorem mapResult_mem (c : Option Json) (q : ℚ) : mapResult c q ∈ resultLabels := by
  unfold mapResult resultLabels
  split_ifs <;> simp

theorem jsonParse_nil : jsonParse ([] : Str) = none := rfl

theorem extractBraces_nil : extractBraces ([] : Str) = none := rfl

theorem jsTrim_nil : jsTrim ([] : Str) = [] := rfl

/-- C1: for every parsed verdict object, a coerced confidence below 70 maps to
the inconclusive label regardless of the classification string; at coerced
confidence at least 70 the three known classification strings map to their
fixed positive labels and any other classification maps to the inconclusive
label. -/
theorem verdict_mapping_threshold (parsed : Json) :
    detectResult parsed =
      if confOf parsed < 70 then notDetectableLbl
      else
        match jsonGet parsed classificationKey with
        | some (Json.str c) =>
          if c = aiGeneratedLit then aiDetectedLbl
          else if c = manipulatedLit then manipulationDetectedLbl
          else if c = realPhotographLit then verifiedLbl
          else notDetectableLbl
        | _ => notDetectableLbl := by
  unfold detectResult mapResult
  by_cases h : confOf parsed < 70
  · rw [if_neg (not_le.mpr h), if_pos h]
  · rw [if_pos (not_lt.mp h), if_neg h]
    cases hc : jsonGet parsed classificationKey with
    | none => simp [jsStrictEqStr]
    | some v => cases v <;> simp [jsStrictEqStr]

/-- C3 counterexample: `confidence_raw = -5` is a negative input outside the
valid 0-100 range, yet `Number(-5) || 0` keeps `-5` (a nonzero number is
truthy), so the coercion does not send it to 0 as the claim states. -/
theorem confidence_coercion_counterexample :
    confCoerce (some (Json.num (-5))) = -5 ∧
    confCoerce (some (Json.num (-5))) ≠ 0 := by
  constructor <;> decide

/-- C3 (amended): the coercion is total and never throws; missing fields and
non-numeric inputs (those whose numeric coercion is `NaN`) coerce to 0, as
does a zero coercion, while any input whose numeric coercion is a nonzero
number — including negative numbers and numbers above 100 — passes through
unchanged rather than being replaced by 0. -/
theorem confidence_coercion_total (v : Option Json) :
    (jsToNumber v = none → confCoerce v = 0) ∧
    (jsToNumber v = some 0 → confCoerce v = 0) ∧
    (∀ q : ℚ, jsToNumber v = some q → q ≠ 0 → confCoerce v = q) := by
  refine ⟨fun h => ?_, fun h => ?_, fun q h hq => ?_⟩
  · simp [confCoerce, numTruthy, h]
  · simp [confCoerce, numTruthy, h]
  · simp [confCoerce, numTruthy, h, hq]

/-- Concrete instances of the amended C3: a non-numeric string coerces to 0
and a negative number passes through. -/
theorem confidence_coercion_total_witness :
    confCoerce (some (Json.str "abc".data)) = 0 ∧
    confCoerce (some (Json.num (-5))) = -5 :=
  ⟨(confidence_coercion_total (some (Json.str "abc".data))).1 (by decide),
   (confidence_coercion_total (some (Json.num (-5)))).2.2 (-5) (by decide) (by decide)⟩

/-- C9: a text that (after trimming) parses as JSON in whole round-trips
through `safeJsonParse` exactly — the first attempt already succeeds, so the
value that text denotes is returned and the fallback extraction is never
consulted. -/
theorem whole_text_roundtrip (s : Str) (v : Json)
    (h : jsonParse (jsTrim s) = some v) :
    safeJsonParse s = some v := by
  have hs : s ≠ [] := by
    intro he
    rw [he, jsTrim_nil, jsonParse_nil] at h
    exact Option.noConfusion h
  simp only [safeJsonParse, if_neg hs, h]

/-- Concrete instance of C9: a whole-text JSON verdict with surrounding
whitespace parses to exactly the denoted object. -/
theorem whole_text_roundtrip_witness :
    safeJsonParse "  \x7b\"classification\": \"AI Generated\", \"reason\": \"artifacts\"\x7d ".data =
      some (Json.obj [(classificationKey, Json.str aiGeneratedLit),
                      (reasonKey, Json.str "artifacts".data)]) :=
  whole_text_roundtrip _ _ rfl

/-- C4: when the whole-text parse fails, the fallback parses exactly the
leftmost-greedy brace-delimited substring, so it recovers precisely the value
a direct parse of that embedded substring yields; when no such substring
exists (and likewise when its parse also fails, since the right-hand side is
then `none`), `safeJsonParse` returns `null` instead of throwing. -/
theorem fallback_extraction (s : Str) (h : jsonParse (jsTrim s) = none) :
    (∀ m, extractBraces (jsTrim s) = some m → safeJsonParse s = jsonParse m) ∧
    (extractBraces (jsTrim s) = none → safeJsonParse s = none) := by
  constructor
  · intro m hm
    by_cases hs : s = []
    · rw [hs, jsTrim_nil, extractBraces_nil] at hm
      exact Option.noConfusion hm
    · simp only [safeJsonParse, if_neg hs, h, hm]
  · intro hn
    by_cases hs : s = []
    · simp [safeJsonParse, hs]
    · simp only [safeJsonParse, if_neg hs, h, hn]

/-- Concrete instance of C4: prose around a JSON object defeats the whole-text
parse, and the fallback recovers exactly the object of the extracted
brace-delimited substring. -/
theorem fallback_extraction_witness :
    jsonParse (jsTrim "note: \x7b\"a\": true\x7d tail".data) = none ∧
    extractBraces (jsTrim "note: \x7b\"a\": true\x7d tail".data) =
      some "\x7b\"a\": true\x7d".data ∧
    safeJsonParse "note: \x7b\"a\": true\x7d tail".data =
      some (Json.obj [("a".data, Json.bool true)]) :=
  ⟨rfl, rfl, by
    rw [(fallback_extraction "note: \x7b\"a\": true\x7d tail".data rfl).1
      "\x7b\"a\": true\x7d".data rfl]
    rfl⟩

theorem apiPhase_fields (env : Env) (rid : Str) (pms : ℤ) (api : ApiOutcome) :
    (apiPhase env rid pms api).tempFileRemains = false ∧
    ((apiPhase env rid pms api).reply.status = 200 ∨
      (apiPhase env rid pms api).reply.status = 500) ∧
    (apiPhase env rid pms api).reply.request_id = rid ∧
    (apiPhase env rid pms api).reply.processing_ms = pms ∧
    (apiPhase env rid pms api).reply.result ∈ resultLabels := by
  cases api with
  | thrown msg =>
    exact ⟨rfl, Or.inr rfl, rfl, rfl, by simp [apiPhase, catchOutcome, resultLabels]⟩
  | ok text =>
    cases h : safeJsonParse text with
    | none => simp [apiPhase, h, catchOutcome, resultLabels]
    | some parsed =>
      by_cases ht : jsonTruthy parsed = true
      · have hb : apiPhase env rid pms (ApiOutcome.ok text) =
            { reply := { status := 200, result := detectResult parsed,
                         confidence := confOf parsed,
                         why := successWhy parsed (confOf parsed),
                         request_id := rid, processing_ms := pms,
                         debugInfo := none },
              tempFileRemains := false } := by
          unfold apiPhase
          dsimp only
          rw [h]
          dsimp only
          rw [if_pos ht]
        rw [hb]
        exact ⟨rfl, Or.inl rfl, rfl, rfl,
          mapResult_mem (jsonGet parsed classificationKey) (confOf parsed)⟩
      · simp [apiPhase, h, ht, catchOutcome, resultLabels]

/-- C2 counterexample: with a credential configured, a request carrying a file
of declared type `image/bmp` exits through the unsupported-type 400 path,
which returns before `filePath` is assigned, so the temp file written by the
upload middleware is still on disk when the reply is sent. -/
theorem temp_file_cleanup_counterexample :
    ((detectHandler ⟨"k".data, [], [], []⟩
        (some ⟨some "image/bmp".data, "uploads/tmp1".data⟩)
        (ApiOutcome.thrown []) 0 0 0 []).tempFileRemains = true) ∧
    ((detectHandler ⟨"k".data, [], [], []⟩
        (some ⟨some "image/bmp".data, "uploads/tmp1".data⟩)
        (ApiOutcome.thrown []) 0 0 0 []).reply.status = 400) := by
  constructor <;> decide

/-- C2 (amended): the temp file is removed before the reply on the success
path and on the internal-error path, both of which run only after validation
has passed and `filePath` is set, and the missing-file 400 path never creates
one; but the unsupported-type 400 path and the missing-credential 500 path
return before `filePath` is assigned and leave the uploaded temp file on
disk. -/
theorem temp_file_cleanup (env : Env) (f : UploadedFile) (api : ApiOutcome)
    (tid t0 t1 : ℤ) (rand : Str) :
    ((detectHandler env none api tid t0 t1 rand).tempFileRemains = false) ∧
    (getApiKey env = [] →
      (detectHandler env (some f) api tid t0 t1 rand).tempFileRemains = true) ∧
    (getApiKey env ≠ [] → mimeLower f ∉ allowedTypes →
      (detectHandler env (some f) api tid t0 t1 rand).tempFileRemains = true) ∧
    (getApiKey env ≠ [] → mimeLower f ∈ allowedTypes →
      (detectHandler env (some f) api tid t0 t1 rand).tempFileRemains = false) := by
  refine ⟨rfl, fun hk => ?_, fun hk hm => ?_, fun hk hm => ?_⟩
  · simp only [detectHandler]
    rw [if_pos hk]
  · simp only [detectHandler]
    rw [if_neg hk, if_neg hm]
  · simp only [detectHandler]
    rw [if_neg hk, if_pos hm]
    exact (apiPhase_fields env (mkRequestId tid rand) (t1 - t0) api).1

/-- Concrete instances of the amended C2: a missing-key request keeps its temp
file, an unsupported-type request keeps its temp file, and an accepted
request that fails upstream has its temp file removed. -/
theorem temp_file_cleanup_witness :
    ((detectHandler ⟨[], [], [], []⟩
        (some ⟨some "image/png".data, "uploads/tmp3".data⟩)
        (ApiOutcome.thrown []) 0 0 0 []).tempFileRemains = true) ∧
    ((detectHandler ⟨"k".data, [], [], []⟩
        (some ⟨some "image/bmp".data, "uploads/tmp3".data⟩)
        (ApiOutcome.thrown []) 0 0 0 []).tempFileRemains = true) ∧
    ((detectHandler ⟨"k".data, [], [], []⟩
        (some ⟨some "image/png".data, "uploads/tmp3".data⟩)
        (ApiOutcome.thrown "boom".data) 0 0 0 []).tempFileRemains = false) :=
  ⟨(temp_file_cleanup ⟨[], [], [], []⟩ ⟨some "image/png".data, "uploads/tmp3".data⟩
      (ApiOutcome.thrown []) 0 0 0 []).2.1 (by decide),
   (temp_file_cleanup ⟨"k".data, [], [], []⟩ ⟨some "image/bmp".data, "uploads/tmp3".data⟩
      (ApiOutcome.thrown []) 0 0 0 []).2.2.1 (by decide) (by decide),
   (temp_file_cleanup ⟨"k".data, [], [], []⟩ ⟨some "image/png".data, "uploads/tmp3".data⟩
      (ApiOutcome.thrown "boom".data) 0 0 0 []).2.2.2 (by decide) (by decide)⟩

/-- C5 counterexample: when no credential is configured, a request with an
unsupported `image/bmp` file is answered by the missing-credential check,
which runs before media-type validation, so the reply is 500, not the 400 the
claim states for every unsupported-type request. -/
theorem media_type_validation_counterexample :
    ((detectHandler ⟨[], [], [], []⟩
        (some ⟨some "image/bmp".data, "uploads/tmp2".data⟩)
        (ApiOutcome.thrown []) 0 0 0 []).reply.status = 500) ∧
    ¬((detectHandler ⟨[], [], [], []⟩
        (some ⟨some "image/bmp".data, "uploads/tmp2".data⟩)
        (ApiOutcome.thrown []) 0 0 0 []).reply.status = 400) := by
  constructor <;> decide

/-- C5 (amended): provided an API credential is configured (the
missing-credential 500 check precedes type validation), every request whose
file declares a media type outside the allow-list is answered 400 with the
inconclusive label, confidence 0, and a why string that contains the declared
type; and every allow-listed media type, in any letter case, passes
validation — such a request is never answered 400. -/
theorem media_type_validation (env : Env) (f : UploadedFile) (api : ApiOutcome)
    (tid t0 t1 : ℤ) (rand : Str) (hkey : getApiKey env ≠ []) :
    (mimeLower f ∉ allowedTypes →
      (detectHandler env (some f) api tid t0 t1 rand).reply.status = 400 ∧
      (detectHandler env (some f) api tid t0 t1 rand).reply.result = notDetectableLbl ∧
      (detectHandler env (some f) api tid t0 t1 rand).reply.confidence = 0 ∧
      (detectHandler env (some f) api tid t0 t1 rand).reply.why =
        unsupportedTypeWhy f.mimetype ∧
      (∃ a b, (detectHandler env (some f) api tid t0 t1 rand).reply.why =
        a ++ strOfOptStr f.mimetype ++ b)) ∧
    (mimeLower f ∈ allowedTypes →
      (detectHandler env (some f) api tid t0 t1 rand).reply.status ≠ 400) := by
  constructor
  · intro hm
    have hbranch :
        detectHandler env (some f) api tid t0 t1 rand =
          { reply := { status := 400, result := notDetectableLbl, confidence := 0,
                       why := unsupportedTypeWhy f.mimetype,
                       request_id := mkRequestId tid rand, processing_ms := t1 - t0,
                       debugInfo := none },
            tempFileRemains := true } := by
      simp only [detectHandler]
      rw [if_neg hkey, if_neg hm]
    rw [hbranch]
    exact ⟨rfl, rfl, rfl, rfl,
      ⟨"Unsupported image type: ".data,
       ". Use jpg, jpeg, png, gif, or webp.".data, rfl⟩⟩
  · intro hm
    have hbranch :
        detectHandler env (some f) api tid t0 t1 rand =
          apiPhase env (mkRequestId tid rand) (t1 - t0) api := by
      simp only [detectHandler]
      rw [if_neg hkey, if_pos hm]
    rw [hbranch]
    rcases (apiPhase_fields env (mkRequestId tid rand) (t1 - t0) api).2.1 with h | h <;>
      simp [h]

/-- Concrete instances of the amended C5: with a credential configured, a
`.bmp` upload is rejected 400 with a why string naming the type, and an
upper-case `IMAGE/PNG` upload passes validation. -/
theorem media_type_validation_witness :
    ((detectHandler ⟨"k".data, [], [], []⟩
        (some ⟨some "image/bmp".data, "uploads/tmp4".data⟩)
        (ApiOutcome.thrown []) 0 0 0 []).reply.status = 400) ∧
    ((detectHandler ⟨"k".data, [], [], []⟩
        (some ⟨some "IMAGE/PNG".data, "uploads/tmp4".data⟩)
        (ApiOutcome.ok "\x7b\"confidence_raw\": 10\x7d".data) 0 0 0 []).reply.status ≠ 400) :=
  ⟨((media_type_validation ⟨"k".data, [], [], []⟩
       ⟨some "image/bmp".data, "uploads/tmp4".data⟩
       (ApiOutcome.thrown []) 0 0 0 [] (by decide)).1 (by decide)).1,
   (media_type_validation ⟨"k".data, [], [], []⟩
       ⟨some "IMAGE/PNG".data, "uploads/tmp4".data⟩
       (ApiOutcome.ok "\x7b\"confidence_raw\": 10\x7d".data) 0 0 0 [] (by decide)).2
       (by decide)⟩

/-- C7: every terminal reply of the `/detect` handler — missing-file 400,
missing-credential 500, unsupported-type 400, internal-error 500 and success
200 alike — carries the request id freshly built from this request's own
timestamp and random suffix, and a processing time equal to the elapsed
clock difference, which is non-negative whenever the reply-time reading is
at least the arrival reading. -/
theorem reply_request_id_processing_ms (env : Env) (file : Option UploadedFile)
    (api : ApiOutcome) (tid t0 t1 : ℤ) (rand : Str) (h : t0 ≤ t1) :
    (detectHandler env file api tid t0 t1 rand).reply.request_id = mkRequestId tid rand ∧
    (detectHandler env file api tid t0 t1 rand).reply.processing_ms = t1 - t0 ∧
    0 ≤ (detectHandler env file api tid t0 t1 rand).reply.processing_ms := by
  have h0 : (0 : ℤ) ≤ t1 - t0 := sub_nonneg.mpr h
  cases file with
  | none => exact ⟨rfl, rfl, h0⟩
  | some f =>
    by_cases hk : getApiKey env = []
    · have hb : detectHandler env (some f) api tid t0 t1 rand =
          { reply := { status := 500, result := notDetectableLbl, confidence := 0,
                       why := missingKeyWhy, request_id := mkRequestId tid rand,
                       processing_ms := t1 - t0, debugInfo := none },
            tempFileRemains := true } := by
        simp only [detectHandler]
        rw [if_pos hk]
      rw [hb]
      exact ⟨rfl, rfl, h0⟩
    · by_cases hm : mimeLower f ∈ allowedTypes
      · have hb : detectHandler env (some f) api tid t0 t1 rand =
            apiPhase env (mkRequestId tid rand) (t1 - t0) api := by
          simp only [detectHandler]
          rw [if_neg hk, if_pos hm]
        rw [hb]
        obtain ⟨-, -, hr, hp, -⟩ :=
          apiPhase_fields env (mkRequestId tid rand) (t1 - t0) api
        exact ⟨hr, hp, le_of_le_of_eq h0 hp.symm⟩
      · have hb : detectHandler env (some f) api tid t0 t1 rand =
            { reply := { status := 400, result := notDetectableLbl, confidence := 0,
                         why := unsupportedTypeWhy f.mimetype,
                         request_id := mkRequestId tid rand,
                         processing_ms := t1 - t0, debugInfo := none },
              tempFileRemains := true } := by
          simp only [detectHandler]
          rw [if_neg hk, if_neg hm]
        rw [hb]
        exact ⟨rfl, rfl, h0⟩

/-- Concrete instance of C7 on the missing-file 400 path with clock readings
10 and 12. -/
theorem reply_request_id_processing_ms_witness :
    (detectHandler ⟨[], [], [], []⟩ none (ApiOutcome.thrown []) 5 10 12 "ab".data).reply.request_id
        = mkRequestId 5 "ab".data ∧
    (detectHandler ⟨[], [], [], []⟩ none (ApiOutcome.thrown []) 5 10 12 "ab".data).reply.processing_ms
        = 12 - 10 ∧
    0 ≤ (detectHandler ⟨[], [], [], []⟩ none (ApiOutcome.thrown []) 5 10 12 "ab".data).reply.processing_ms :=
  reply_request_id_processing_ms ⟨[], [], [], []⟩ none (ApiOutcome.thrown []) 5 10 12
    "ab".data (by decide)

/-- C8: the verdict mapper is total and never throws — for every parsed
object, however malformed its `classification`, `confidence_raw` or `reason`
fields, the computed result is one of the four labels, and every reply the
handler produces, on any path, carries one of the four labels. -/
theorem verdict_mapper_total :
    (∀ parsed : Json, detectResult parsed ∈ resultLabels) ∧
    (∀ (env : Env) (file : Option UploadedFile) (api : ApiOutcome)
      (tid t0 t1 : ℤ) (rand : Str),
      (detectHandler env file api tid t0 t1 rand).reply.result ∈ resultLabels) := by
  constructor
  · intro parsed
    exact mapResult_mem (jsonGet parsed classificationKey) (confOf parsed)
  · intro env file api tid t0 t1 rand
    cases file with
    | none => simp [detectHandler, resultLabels]
    | some f =>
      by_cases hk : getApiKey env = []
      · have hb : (detectHandler env (some f) api tid t0 t1 rand).reply.result =
            notDetectableLbl := by
          simp only [detectHandler]
          rw [if_pos hk]
        rw [hb]
        simp [resultLabels]
      · by_cases hm : mimeLower f ∈ allowedTypes
        · have hb : detectHandler env (some f) api tid t0 t1 rand =
              apiPhase env (mkRequestId tid rand) (t1 - t0) api := by
            simp only [detectHandler]
            rw [if_neg hk, if_pos hm]
          rw [hb]
          exact (apiPhase_fields env (mkRequestId tid rand) (t1 - t0) api).2.2.2.2
        · have hb : (detectHandler env (some f) api tid t0 t1 rand).reply.result =
              notDetectableLbl := by
            simp only [detectHandler]
            rw [if_neg hk, if_neg hm]
          rw [hb]
          simp [resultLabels]

/-- C6 counterexample: no `GET /` route is registered in src/index.js — a
`GET /` request matches neither `/health` nor `/detect` and falls through to
the framework's 404, so the claimed route object is never returned. -/
theorem root_route_counterexample : dispatch Method.get "/".data = none := rfl

/-- C6 (amended): the service registers no `GET /` route; its HTTP surface is
`GET /health`, `POST /detect`, and the CORS middleware answering every
`OPTIONS` request, with anything else — including `GET /` — unhandled. -/
theorem registered_routes :
    dispatch Method.get "/".data = none ∧
    dispatch Method.get "/health".data = some RouteTag.health ∧
    dispatch Method.post "/detect".data = some RouteTag.detect ∧
    ∀ p : Str, dispatch Method.options p = some RouteTag.corsPreflight :=
  ⟨rfl, rfl, rfl, fun _ => rfl⟩

/-- C10: beyond the documented `ok`/`hasKey`/`debug` fields, the health reply
exposes `keyPreview` — the first 7 and last 4 characters of the configured
credential, `null` when none is configured — and an `envLocalLoaded` boolean
reflecting the presence of `.env.local`. -/
theorem health_key_preview (env : Env) (b : Bool) :
    (getApiKey env ≠ [] →
      (healthHandler env b).keyPreview =
        some ((getApiKey env).take 7 ++ "...".data ++
          (getApiKey env).drop ((getApiKey env).length - 4))) ∧
    (getApiKey env = [] → (healthHandler env b).keyPreview = none) ∧
    (healthHandler env b).envLocalLoaded = b := by
  refine ⟨fun h => ?_, fun h => ?_, rfl⟩
  · simp [healthHandler, h]
  · simp [healthHandler, h]

/-- Concrete instance of C10: a configured 16-character credential previews as
its first 7 and last 4 characters. -/
theorem health_key_preview_witness :
    (healthHandler ⟨"sk-proj-TEST1234".data, [], [], []⟩ true).keyPreview =
      some "sk-proj...1234".data ∧
    (healthHandler ⟨"sk-proj-TEST1234".data, [], [], []⟩ true).envLocalLoaded = true := by
  constructor
  · rw [(health_key_preview ⟨"sk-proj-TEST1234".data, [], [], []⟩ true).1 (by decide)]
    rfl
  · exact (health_key_preview ⟨"sk-proj-TEST1234".data, [], [], []⟩ true).2.2
